import Mathlib

/-!
Verification of the ParaImage in-application updater core.

Shallow embedding of `backend/src/services/update.py`, the update-and-install
subsystem (version comparison, platform-aware asset selection, progress-tracked
download, install orchestration), together with proofs of its specified
properties.

Python strings are modelled as Lean `String`s and all character-level
operations are implemented over `List Char` so that every definition is
executable and kernel-reducible.  Text handling is modelled at the ASCII level
(Python's `str.lower`, `str.strip`, `str.isdigit` additionally handle
non-ASCII code points; none of the constants the updater compares against are
non-ASCII).

Effectful operations (network, filesystem, process launch) are modelled by
explicit environment records and by traces of events that a call emits, in
program order.  An uncaught Python exception is modelled by `Except.error`.
-/

namespace Updater

/-! Section: Character and string primitives (Python semantics) -/

/-- ASCII decimal digit test (`'0'` to `'9'`). -/
def isAsciiDigit (c : Char) : Bool := '0' ≤ c && c ≤ '9'

/-- ASCII whitespace, as stripped by Python's `str.strip()`. -/
def isPyWhitespace (c : Char) : Bool :=
  c = ' ' || c = '\t' || c = '\n' || c = '\x0d' || c = '\x0b' || c = '\x0c'

/-- Python `str.strip()`: drop leading and trailing whitespace. -/
def trimChars (l : List Char) : List Char :=
  ((l.dropWhile isPyWhitespace).reverse.dropWhile isPyWhitespace).reverse

/-- Python `str.lower()` restricted to ASCII letters. -/
def lowerChar (c : Char) : Char :=
  if 'A' ≤ c && c ≤ 'Z' then Char.ofNat (c.toNat + 32) else c

/-- Lowercase a string character by character. -/
def pyLower (s : String) : String := String.mk (s.data.map lowerChar)

/-- Python `s.startswith(p)`. -/
def strStartsWith (s p : String) : Bool := p.data.isPrefixOf s.data

/-- Python `s.endswith(p)`. -/
def strEndsWith (s p : String) : Bool := p.data.isSuffixOf s.data

/-- Does `p` occur as a contiguous sublist starting at some position of the
second argument? -/
def occursIn (p : List Char) : List Char → Bool
  | [] => p.isPrefixOf []
  | c :: rest => p.isPrefixOf (c :: rest) || occursIn p rest

/-- Python `p in s` (substring containment). -/
def strContains (s p : String) : Bool := occursIn p.data s.data

/-- Split a character list at every occurrence of the separator character,
mirroring Python `str.split(sep)` with a one-character separator:
`"".split(".") == [""]`, `".".split(".") == ["", ""]`. -/
def splitOnChar (sep : Char) : List Char → List (List Char)
  | [] => [[]]
  | c :: cs =>
    let r := splitOnChar sep cs
    if c = sep then [] :: r
    else
      match r with
      | y :: ys => (c :: y) :: ys
      | [] => [[c]]

/-- Value of a digit list, most significant first. -/
def digitsToNat (l : List Char) : ℕ :=
  l.foldl (fun n c => 10 * n + (c.toNat - 48)) 0

/-- Tail of the digit grammar of a Python `int()` literal: after a digit, the
rest is digits optionally separated by single underscores. -/
def pyIntTail : List Char → Bool
  | [] => true
  | '_' :: c :: rest => isAsciiDigit c && pyIntTail rest
  | c :: rest => isAsciiDigit c && pyIntTail rest

/-- Whole-literal digit grammar of an unsigned Python `int()` argument. -/
def pyIntBody : List Char → Bool
  | [] => false
  | c :: rest => isAsciiDigit c && pyIntTail rest

/-- Python `int(s)` for an unsigned decimal string: surrounding whitespace is
stripped, single underscores may separate digits; any other shape raises
`ValueError`, modelled as `none`.  (The callers in `update.py` never pass a
signed literal: every `+`/`-` has been split off beforehand.) -/
def pyIntOfChars? (l : List Char) : Option ℕ :=
  let t := trimChars l
  if pyIntBody t then some (digitsToNat (t.filter fun c => c ≠ '_')) else none

/-! Section: Version Comparator (`_parse_version`, `_is_newer`) -/

/-- Source `_parse_version`: strip the string, drop one leading `v`/`V`, cut at the
first `+` and then at the first `-`, split on `.`, parse each component with
`int()` defaulting to `0`, pad with zeros and keep the first three. -/
def parseVersion (value : String) : ℕ × ℕ × ℕ :=
  let cleaned := trimChars value.data
  let cleaned :=
    match cleaned with
    | 'v' :: rest => rest
    | 'V' :: rest => rest
    | l => l
  let cleaned := (cleaned.takeWhile fun c => c ≠ '+').takeWhile fun c => c ≠ '-'
  let parts := splitOnChar '.' cleaned
  let numbers := parts.map fun part => (pyIntOfChars? part).getD 0
  (numbers.getD 0 0, numbers.getD 1 0, numbers.getD 2 0)

/-- Python tuple comparison `a > b` on triples of integers (lexicographic). -/
def versionGt : ℕ × ℕ × ℕ → ℕ × ℕ × ℕ → Bool
  | (a₁, a₂, a₃), (b₁, b₂, b₃) =>
    decide (b₁ < a₁ ∨ (a₁ = b₁ ∧ (b₂ < a₂ ∨ (a₂ = b₂ ∧ b₃ < a₃))))

/-- Source `_is_newer`: lexicographic comparison of the parsed versions. -/
def isNewer (latest current : String) : Bool :=
  versionGt (parseVersion latest) (parseVersion current)

/-! Section: Release Resolver: platforms, asset kinds and asset selection -/

/-- The three platforms `_platform_key()` can report. -/
inductive Platform
  | windows
  | macos
  | linux
deriving DecidableEq, Repr

/-- An asset's derived kind, from the suffix table `_PLATFORM_ASSET_EXTENSIONS`. -/
inductive AssetKind
  | archive
  | installer
deriving DecidableEq, Repr

/-- Source `_PLATFORM_ASSET_EXTENSIONS`: suffix table per platform, in the source's
insertion order (`archive` entries first). -/
def platformAssetExtensions : Platform → List (AssetKind × List String)
  | .windows => [(.archive, [".zip"]), (.installer, [".exe", ".msi"])]
  | .macos => [(.archive, [".zip"]), (.installer, [".dmg", ".pkg"])]
  | .linux => [(.archive, [".tar.gz", ".tgz", ".tar"]), (.installer, [".appimage"])]

/-- Source `_platform_asset_kind`: the first kind whose suffix list matches the
lowercased name, or `none`. -/
def platformAssetKind (p : Platform) (name : String) : Option AssetKind :=
  let lowered := pyLower name
  (platformAssetExtensions p).findSome? fun ks =>
    if ks.2.any (fun suffix => strEndsWith lowered suffix) then some ks.1 else none

/-- One token character of the pattern `[a-z0-9]+`. -/
def isTokenChar (c : Char) : Bool :=
  ('a' ≤ c && c ≤ 'z') || ('0' ≤ c && c ≤ '9')

/-- Maximal runs of token characters, accumulator-style (`re.findall`). -/
def tokenRuns : List Char → List Char → List String
  | acc, [] => if acc.isEmpty then [] else [String.mk acc.reverse]
  | acc, c :: cs =>
    if isTokenChar c then tokenRuns (c :: acc) cs
    else if acc.isEmpty then tokenRuns [] cs
    else String.mk acc.reverse :: tokenRuns [] cs

/-- Source `_asset_tokens`: `re.findall("[a-z0-9]+", name.lower())`. -/
def assetTokens (name : String) : List String :=
  tokenRuns [] (pyLower name).data

/-- Source `_matches_platform`: token heuristics for each platform. -/
def matchesPlatform (tokens : List String) : Platform → Bool
  | .windows => tokens.any fun t => t == "windows" || strStartsWith t "win"
  | .macos =>
    tokens.any fun t =>
      (t == "macos" || t == "osx" || t == "darwin") || strStartsWith t "mac"
  | .linux =>
    tokens.any fun t =>
      strStartsWith t "linux" ||
        (t == "ubuntu" || t == "debian" || t == "fedora" || t == "appimage")

/-- Source `_asset_platforms`: the set of platforms an asset name token-matches,
as a list in the source's iteration order. -/
def assetPlatforms (name : String) : List Platform :=
  [Platform.windows, Platform.macos, Platform.linux].filter
    (matchesPlatform (assetTokens name))

/-- Source `_is_update_archive`. -/
def isUpdateArchive (p : Platform) (name : String) : Bool :=
  platformAssetKind p name == some AssetKind.archive

/-- The candidate pool built by the first loop of `_pick_asset`: named assets
matching the current platform and, when there are none, named assets carrying
no recognized platform token at all.  An asset is represented by its `name`
field, the only field the selector inspects. -/
def assetPool (p : Platform) (assets : List String) : List String :=
  let candidates :=
    assets.filter fun name => name != "" && (assetPlatforms name).contains p
  let generic :=
    assets.filter fun name => name != "" && (assetPlatforms name).isEmpty
  if candidates.isEmpty then generic else candidates

/-- Final three fallback loops of `_pick_asset` over the narrowed candidate
list: first archive-kind candidate, else first installer-kind candidate, else
the first candidate. -/
def pickCascade (p : Platform) (candidates : List String) : Option String :=
  match candidates.find? fun name => isUpdateArchive p name with
  | some a => some a
  | none =>
    match candidates.find? fun name =>
        platformAssetKind p name == some AssetKind.installer with
    | some a => some a
    | none => candidates.head?

/-- Selection from a non-empty candidate pool (`_pick_asset` lines after the
pool is built): narrow to candidates with a recognized kind when any exist,
return the first match for the preferred kind if requested, else fall through
the archive/installer/first cascade. -/
def pickFromPool (p : Platform) (pool : List String)
    (preferredKind : Option AssetKind) : Option String :=
  let supported := pool.filter fun name => (platformAssetKind p name).isSome
  let candidates := if supported.isEmpty then pool else supported
  let byPreference :=
    match preferredKind with
    | some k => candidates.find? fun name => platformAssetKind p name == some k
    | none => none
  match byPreference with
  | some a => some a
  | none => pickCascade p candidates

/-- Source `_pick_asset`: `None` on an empty asset list, build the candidate
pool, `None` when it is empty, then select from the pool. -/
def pickAsset (p : Platform) (assets : List String)
    (preferredKind : Option AssetKind) : Option String :=
  if assets.isEmpty then none
  else if (assetPool p assets).isEmpty then none
  else pickFromPool p (assetPool p assets) preferredKind

/-! Section: URL and path helpers (CPython `urllib.parse` / `pathlib` semantics)

`download_update` computes `Path(urllib.parse.urlparse(asset_url).path).name`.
These helpers model CPython's `urlsplit` for URLs that begin with
`https://` — tab, carriage-return and newline characters are removed, the
network location is the run after the `https://` prefix up to the first
`/`, `?` or `#`, an unmatched square bracket in it raises
`ValueError("Invalid IPv6 URL")`, and the path is the following run up to the
first `?` or `#` — and `pathlib.PurePosixPath.name` (empty and `.` components
are not path components). -/

/-- Remove the characters CPython's `urlsplit` deletes before parsing. -/
def urlSanitize (s : String) : String :=
  String.mk (s.data.filter fun c => c ≠ '\t' && c ≠ '\x0d' && c ≠ '\n')

/-- The authority component of a sanitized `https://` URL. -/
def urlNetloc (s : String) : String :=
  String.mk
    (((urlSanitize s).data.drop 8).takeWhile fun c => c ≠ '/' && c ≠ '?' && c ≠ '#')

/-- The path component of a sanitized `https://` URL. -/
def urlPath (s : String) : String :=
  String.mk
    ((((urlSanitize s).data.drop 8).dropWhile fun c => c ≠ '/' && c ≠ '?' && c ≠ '#').takeWhile
      fun c => c ≠ '?' && c ≠ '#')

/-- Mismatched square brackets in the authority make `urlsplit` raise. -/
def urlBracketMismatch (s : String) : Bool :=
  ((urlNetloc s).data.contains '[') != ((urlNetloc s).data.contains ']')

/-- Components of a POSIX path string, as in `PurePosixPath.parts` minus the
root entry: empty and `.` segments disappear, everything else (including
`..`) is kept. -/
def pyPathParts (s : String) : List String :=
  ((splitOnChar '/' s.data).map String.mk).filter fun seg => seg != "" && seg != "."

/-- Model of `PurePosixPath(s).name`: the last component, or `""`. -/
def pyPathName (s : String) : String :=
  (pyPathParts s).getLast?.getD ""

/-! Section: Download Tracker (`download_update`, `get_download_progress`) -/

deriving instance DecidableEq for Except

/-- A Python exception escaping a public operation uncaught. -/
inductive PyExc
  | valueError (msg : String)
  | osError (msg : String)
deriving DecidableEq, Repr

/-- The module-level `_DOWNLOAD_PROGRESS` dictionary. -/
structure DownloadProgress where
  active : Bool
  done : Bool
  downloaded : ℕ
  total : Option ℕ
  percent : Option ℕ
  error : Option String
deriving DecidableEq, Repr

/-- The fresh state `download_update` installs before doing anything else. -/
def resetProgress : DownloadProgress :=
  { active := true, done := false, downloaded := 0, total := none,
    percent := some 0, error := none }

/-- The result dictionary of `download_update`: `{"ok": ..., "error": ...}`
or `{"ok": True, "path": ...}`. -/
structure DlResult where
  ok : Bool
  error : Option String := none
  path : Option String := none
deriving DecidableEq, Repr

/-- Observable effects of one `download_update` call, in program order.
`progressSet` is one `_DOWNLOAD_PROGRESS.update(...)` under the lock (the
recorded state is the dictionary contents after the update); `netOpen` is the
single `urllib.request.urlopen` call; file events are on the target file.
`download_update` never deletes a file, so no `fileDelete` is ever emitted —
the constructor exists so that "the partial file is not cleaned up" is
expressible. -/
inductive DlEvent
  | mkdirUpdates
  | progressSet (st : DownloadProgress)
  | netOpen (url : String)
  | fileOpen (path : String)
  | fileWrite (path : String) (bytes : ℕ)
  | fileDelete (path : String)
deriving DecidableEq, Repr

/-- Behavior of the network for the one `urlopen` call: either the open
itself raises (`OSError`/`URLError`, caught by the code), or it yields a
response with an optional `Content-Length` header value, the successive
non-empty chunk sizes `response.read(1024*1024)` returns, and optionally an
exception raised by the read following the listed chunks.  A `0` entry in
`chunks` models a read returning `b""` (end of stream). -/
inductive NetResult
  | failure (msg : String)
  | response (contentLength : Option String) (chunks : List ℕ) (streamError : Option String)
deriving DecidableEq, Repr

/-- Environment of one `download_update` call.  `mkdirError` models
`updates_dir.mkdir(parents=True, exist_ok=True)` raising `OSError`; that call
sits outside the `try` block, so a failure there escapes uncaught. -/
structure DlEnv where
  net : NetResult
  mkdirError : Option String
deriving Repr

/-- Model of `int(total_header) if total_header.isdigit() else None` applied to
`(response.headers.get("Content-Length") or "").strip()`. -/
def parseContentLength (header : Option String) : Option ℕ :=
  let t := trimChars (header.getD "").data
  if t ≠ [] && t.all isAsciiDigit then some (digitsToNat t) else none

/-- Python truthiness of an optional integer: `None` and `0` are falsy. -/
def optPos : Option ℕ → Bool
  | some n => n != 0
  | none => false

/-- The per-chunk percent:
`min(100, int(downloaded * 100 / total_size)) if total_size else None`.
CPython evaluates `downloaded * 100 / total_size` in floating point and
truncates; on exact rationals that is the floor division used here, and the
`min` keeps the value at or below `100` under either reading. -/
def chunkPercent : Option ℕ → ℕ → Option ℕ
  | some n, downloaded => if n = 0 then none else some (min 100 (downloaded * 100 / n))
  | none, _ => none

/-- The streaming loop: write each chunk, add its size, publish the new
progress state.  A `0` chunk is `response.read` returning `b""`, which breaks
the loop.  Returns the emitted events and the state after the loop. -/
def streamLoop (path : String) (totalSize : Option ℕ) :
    List ℕ → DownloadProgress → List DlEvent × DownloadProgress
  | [], st => ([], st)
  | c :: rest, st =>
    if c = 0 then ([], st)
    else
      let d := st.downloaded + c
      let st' := { st with downloaded := d, percent := chunkPercent totalSize d }
      let r := streamLoop path totalSize rest st'
      (DlEvent.fileWrite path c :: DlEvent.progressSet st' :: r.1, r.2)

/-- The file the download streams into: the updates directory joined with the
final path segment of the URL.  It depends only on the data directory and the
URL, so a retried download of the same URL reopens the same file (mode
`"wb"`, which truncates whatever a previous attempt left there). -/
def downloadTarget (dataDir url : String) : String :=
  dataDir ++ "/updates/" ++ pyPathName (urlPath url)

/-- The progress update of the caught mid-stream/network error handler:
`active=False, done=True, error=str(exc)`, other fields kept. -/
def finalizeError (st : DownloadProgress) (e : String) : DownloadProgress :=
  { st with active := false, done := true, error := some e }

/-- The final progress update on success: `active=False, done=True`,
`percent=100` when the recorded total is truthy (else the current percent),
`error=None`. -/
def finalizeSuccess (st : DownloadProgress) : DownloadProgress :=
  { st with
    active := false
    done := true
    error := none
    percent :=
      match st.total with
      | some t => if t ≠ 0 then some 100 else st.percent
      | none => st.percent }

/-- The progress state at the start of the streaming loop: the reset state,
with `total` recorded when the parsed `Content-Length` is truthy. -/
def initProgress (totalSize : Option ℕ) : DownloadProgress :=
  if optPos totalSize then { resetProgress with total := totalSize }
  else resetProgress

/-- Body of `download_update` past URL validation: create the updates
directory, reset the shared progress state, open the URL, stream chunks, and
finalize the progress state on success or on a caught mid-stream error. -/
def downloadStream (dataDir : String) (env : DlEnv) (assetUrl : String) :
    Except PyExc DlResult × List DlEvent :=
  match env.mkdirError with
  | some e => (.error (.osError e), [DlEvent.mkdirUpdates])
  | none =>
    let target := downloadTarget dataDir assetUrl
    let ev0 := [DlEvent.mkdirUpdates, DlEvent.progressSet resetProgress,
      DlEvent.netOpen assetUrl]
    match env.net with
    | .failure msg =>
      (.ok { ok := false, error := some msg },
        ev0 ++ [DlEvent.progressSet (finalizeError resetProgress msg)])
    | .response clHeader chunks streamError =>
      let totalSize := parseContentLength clHeader
      let st1 := initProgress totalSize
      let evT := if optPos totalSize then [DlEvent.progressSet st1] else []
      let s := streamLoop target totalSize chunks st1
      let preEvents := ev0 ++ evT ++ [DlEvent.fileOpen target] ++ s.1
      match streamError, chunks.contains 0 with
      | some e, false =>
        (.ok { ok := false, error := some e },
          preEvents ++ [DlEvent.progressSet (finalizeError s.2 e)])
      | _, _ =>
        (.ok { ok := true, path := some target },
          preEvents ++ [DlEvent.progressSet (finalizeSuccess s.2)])

/-- All the synchronous checks `download_update` runs before touching the
filesystem or the network, in source order: non-empty URL, `https://` prefix,
release-download path for the configured repository, URL parsing (which can
itself raise, see `urlBracketMismatch`), non-empty filename. -/
def dlValidates (repo url : String) : Bool :=
  !(url == "") && strStartsWith url "https://" &&
    strContains url ("/" ++ repo ++ "/releases/download/") &&
    !urlBracketMismatch url && !(pyPathName (urlPath url) == "")

/-- Source `download_update(asset_url)`, returning the result (or the uncaught
exception) and the trace of emitted events. -/
def downloadUpdate (repo dataDir : String) (env : DlEnv) (assetUrl : String) :
    Except PyExc DlResult × List DlEvent :=
  if assetUrl == "" then (.ok { ok := false, error := some "missing asset url" }, [])
  else if !strStartsWith assetUrl "https://" then
    (.ok { ok := false, error := some "invalid asset url" }, [])
  else if !strContains assetUrl ("/" ++ repo ++ "/releases/download/") then
    (.ok { ok := false, error := some "asset url not from release" }, [])
  else if urlBracketMismatch assetUrl then
    (.error (.valueError "Invalid IPv6 URL"), [])
  else if pyPathName (urlPath assetUrl) == "" then
    (.ok { ok := false, error := some "invalid asset url" }, [])
  else downloadStream dataDir env assetUrl

/-- The successive states of the shared `_DOWNLOAD_PROGRESS` dictionary
during a call, read off the event trace. -/
def progressStates (evs : List DlEvent) : List DownloadProgress :=
  evs.filterMap fun e =>
    match e with
    | .progressSet st => some st
    | _ => none

/-- Source `get_download_progress()`: a pure read of the shared state under the
lock, packaged as `{"ok": True, **_DOWNLOAD_PROGRESS}`. -/
def getDownloadProgress (st : DownloadProgress) : Bool × DownloadProgress :=
  (true, st)

/-! Section: Install Orchestrator (`install_update`) -/

/-- Source `_validate_archive`: recognized archive type of a file name for the
current platform, or `none`. -/
def validateArchive (p : Platform) (name : String) : Option String :=
  let n := pyLower name
  match p with
  | .windows => if strEndsWith n ".zip" then some "zip" else none
  | .macos => if strEndsWith n ".zip" then some "zip" else none
  | .linux =>
    if strEndsWith n ".tar.gz" || strEndsWith n ".tgz" then some "tar.gz"
    else if strEndsWith n ".tar" then some "tar" else none

/-- Source `_is_windows_installer`: on Windows only, a `.exe` or `.msi` file name. -/
def isWindowsInstaller (p : Platform) (name : String) : Bool :=
  p == Platform.windows &&
    (strEndsWith (pyLower name) ".exe" || strEndsWith (pyLower name) ".msi")

/-- Which generated script `_write_script` is writing.  The scripts are
opaque PowerShell/sh text executed after this process exits; their contents
are outside the observable contract of the core, so they are identified by
tag. -/
inductive ScriptKind
  | windowsInstaller
  | windowsUpdate
  | unixUpdate
deriving DecidableEq, Repr

/-- Observable effects of one `install_update` call, in program order:
creating the updates directory (`_updates_dir`), the `stat` behind
`resolved_path.exists()`, the writability probe of `_can_write_to_dir`, the
script write of `_write_script`, and the detached `subprocess.Popen` launch
with its full argument vector. -/
inductive InstEvent
  | mkdirUpdates
  | statPath (path : String)
  | writeProbe (dir : String)
  | writeScript (path : String) (script : ScriptKind)
  | launch (cmd : List String)
deriving DecidableEq, Repr

/-- Result dictionary of `install_update`. -/
structure InstResult where
  ok : Bool
  error : Option String := none
deriving DecidableEq, Repr

/-- Environment of one `install_update` call.  `frozen` is `sys.frozen`
(packaged mode); `resolvePath` is `Path(...).resolve()` on the expanded asset
path (symlinks and `..` segments followed; `Except.error` is an `OSError`,
which `_normalize_update_path` catches); `updatesDirRes` is
`_updates_dir().resolve()`; `installPaths` is `_resolve_install_paths()`
(which resolves `sys.executable`); `pathExists` and `canWrite` are modelled
as total boolean predicates, as they return booleans in the source;
`mkdirError` models `mkdir` raising; `popenError` models `Popen` raising
`OSError`, which the source catches. -/
structure InstallEnv where
  frozen : Bool
  pid : ℕ
  dataDir : String
  expanduser : String → String
  resolvePath : String → Except String String
  updatesDirRes : Except String String
  pathExists : String → Bool
  installPaths : Except String (String × String)
  canWrite : String → Bool
  mkdirError : Option String
  popenError : Option String

/-- Source `_normalize_update_path`: reject empty input, resolve the expanded path
(`OSError` means `None`), then require the result to sit at or below the
resolved updates directory via `Path.relative_to`, modelled as component-list
prefix on resolved absolute paths. -/
def normalizeUpdatePath (env : InstallEnv) (assetPath : String) :
    Except PyExc (Option String) × List InstEvent :=
  if assetPath == "" then (.ok none, [])
  else
    match env.resolvePath (env.expanduser assetPath) with
    | .error _ => (.ok none, [])
    | .ok resolved =>
      match env.mkdirError with
      | some e => (.error (.osError e), [InstEvent.mkdirUpdates])
      | none =>
        match env.updatesDirRes with
        | .error e => (.error (.osError e), [InstEvent.mkdirUpdates])
        | .ok ud =>
          if (pyPathParts ud).isPrefixOf (pyPathParts resolved) then
            (.ok (some resolved), [InstEvent.mkdirUpdates])
          else (.ok none, [InstEvent.mkdirUpdates])

/-- The final `subprocess.Popen` of `install_update`: emit the launch event;
a raised `OSError` is caught and returned as an error dictionary. -/
def launchDetached (env : InstallEnv) (evs : List InstEvent) (cmd : List String) :
    Except PyExc InstResult × List InstEvent :=
  match env.popenError with
  | some e => (.ok { ok := false, error := some e }, evs ++ [InstEvent.launch cmd])
  | none => (.ok { ok := true }, evs ++ [InstEvent.launch cmd])

/-- Source `install_update(asset_path)`: refuse outside packaged mode, normalize and
existence-check the path, resolve install paths, then either arm the Windows
native-installer script or validate the archive type, check writability on
Windows, and arm the platform update script.  Returns the result (or an
uncaught exception) and the event trace.  (`_write_script` is modelled as
always succeeding; the `if not target_dir` guard of the source can only fire
for an empty string, since a `pathlib.Path` object is always truthy.) -/
def installUpdate (p : Platform) (env : InstallEnv) (assetPath : String) :
    Except PyExc InstResult × List InstEvent :=
  if !env.frozen then
    (.ok { ok := false, error := some "update install only supported in packaged app" }, [])
  else
    match normalizeUpdatePath env assetPath with
    | (.error e, evs) => (.error e, evs)
    | (.ok none, evs) => (.ok { ok := false, error := some "update asset not found" }, evs)
    | (.ok (some resolved), evs) =>
      let evs := evs ++ [InstEvent.statPath resolved]
      if !env.pathExists resolved then
        (.ok { ok := false, error := some "update asset not found" }, evs)
      else
        match env.installPaths with
        | .error e => (.error (.osError e), evs)
        | .ok (targetDir, launchPath) =>
          if targetDir == "" then
            (.ok { ok := false, error := some "unable to resolve install path" }, evs)
          else
            match env.mkdirError with
            | some e => (.error (.osError e), evs ++ [InstEvent.mkdirUpdates])
            | none =>
              let evs := evs ++ [InstEvent.mkdirUpdates]
              let updatesDir := env.dataDir ++ "/updates"
              let staging := updatesDir ++ "/staging-" ++ toString env.pid
              if isWindowsInstaller p (pyPathName resolved) then
                let scriptPath :=
                  updatesDir ++ "/run-installer-" ++ toString env.pid ++ ".ps1"
                let evs := evs ++ [InstEvent.writeScript scriptPath .windowsInstaller]
                launchDetached env evs
                  ["powershell", "-NoProfile", "-ExecutionPolicy", "Bypass", "-File",
                    scriptPath, toString env.pid, resolved, launchPath]
              else
                match validateArchive p (pyPathName resolved) with
                | none => (.ok { ok := false, error := some "unsupported update asset" }, evs)
                | some _ =>
                  let evs :=
                    if p == Platform.windows then evs ++ [InstEvent.writeProbe targetDir]
                    else evs
                  if p == Platform.windows && !env.canWrite targetDir then
                    let err := "install path not writable; use installer instead"
                    (.ok { ok := false, error := some err }, evs)
                  else if p == Platform.windows then
                    let scriptPath :=
                      updatesDir ++ "/apply-update-" ++ toString env.pid ++ ".ps1"
                    let evs := evs ++ [InstEvent.writeScript scriptPath .windowsUpdate]
                    launchDetached env evs
                      ["powershell", "-NoProfile", "-ExecutionPolicy", "Bypass", "-File",
                        scriptPath, toString env.pid, resolved, targetDir, launchPath,
                        staging]
                  else
                    let scriptPath :=
                      updatesDir ++ "/apply-update-" ++ toString env.pid ++ ".sh"
                    let evs := evs ++ [InstEvent.writeScript scriptPath .unixUpdate]
                    launchDetached env evs
                      ["/bin/sh", scriptPath, toString env.pid, resolved, targetDir,
                        launchPath, staging]

/-! Section: Version comparator properties (claim C8) -/

/-- Claim C8: version parsing is total (a Lean function by construction),
strips an optional leading `v`, discards suffixes after `+` or `-`, and maps
non-numeric or missing components to `0` — so `parse("v1.2.3-beta") = (1,2,3)`
and `parse("bad") = (0,0,0)` — and `_is_newer(a, b)` holds exactly when the
parsed triples compare strictly greater under lexicographic comparison of
(major, minor, patch). -/
theorem version_comparator_contract :
    parseVersion "v1.2.3-beta" = (1, 2, 3) ∧
    parseVersion "bad" = (0, 0, 0) ∧
    ∀ a b : String,
      isNewer a b = true ↔
        ((parseVersion b).1 < (parseVersion a).1 ∨
          ((parseVersion a).1 = (parseVersion b).1 ∧
            ((parseVersion b).2.1 < (parseVersion a).2.1 ∨
              ((parseVersion a).2.1 = (parseVersion b).2.1 ∧
                (parseVersion b).2.2 < (parseVersion a).2.2)))) := by
  refine ⟨by decide, by decide, fun a b => ?_⟩
  rcases hpa : parseVersion a with ⟨a₁, a₂, a₃⟩
  rcases hpb : parseVersion b with ⟨b₁, b₂, b₃⟩
  simp [isNewer, hpa, hpb, versionGt]

/-! Section: Asset selection properties (claims C4, C5) -/

/-- Helper: `beq` on optional kinds read back as an equation. -/
lemma kindBeq_iff (o : Option AssetKind) (k : AssetKind) :
    (o == some k) = true ↔ o = some k := by
  cases o <;> simp

/-- Helper: when every candidate kind is unrecognized, the cascade returns
the first candidate. -/
lemma pickCascade_all_none (p : Platform) (cs : List String)
    (h : ∀ b ∈ cs, platformAssetKind p b = none) :
    pickCascade p cs = cs.head? := by
  have h₁ : (cs.find? fun name => isUpdateArchive p name) = none := by
    rw [List.find?_eq_none]
    intro x hx
    simp [isUpdateArchive, h x hx]
  have h₂ : (cs.find? fun name =>
      platformAssetKind p name == some AssetKind.installer) = none := by
    rw [List.find?_eq_none]
    intro x hx
    simp [h x hx]
  rw [pickCascade, h₁, h₂]

/-- Helper: over candidates that all have a recognized kind, the cascade
returns a member that is an archive when one exists and an installer
otherwise. -/
lemma pickCascade_spec (p : Platform) (cs : List String) (hne : cs ≠ [])
    (hsome : ∀ b ∈ cs, (platformAssetKind p b).isSome = true) :
    ∃ a, pickCascade p cs = some a ∧ a ∈ cs ∧
      ((∃ b ∈ cs, platformAssetKind p b = some AssetKind.archive) →
        platformAssetKind p a = some AssetKind.archive) ∧
      ((∀ b ∈ cs, platformAssetKind p b ≠ some AssetKind.archive) →
        platformAssetKind p a = some AssetKind.installer) := by
  cases hfa : cs.find? fun name => isUpdateArchive p name with
  | some a =>
    have hmem := List.mem_of_find?_eq_some hfa
    have hka : platformAssetKind p a = some AssetKind.archive := by
      have := List.find?_some hfa
      simpa [isUpdateArchive, kindBeq_iff] using this
    refine ⟨a, ?_, hmem, fun _ => hka, fun hno => absurd hka (hno a hmem)⟩
    rw [pickCascade, hfa]
  | none =>
    have hnoarch : ∀ b ∈ cs, platformAssetKind p b ≠ some AssetKind.archive := by
      intro b hb hk
      have := List.find?_eq_none.mp hfa b hb
      simp [isUpdateArchive, hk] at this
    cases hfi : cs.find? fun name =>
        platformAssetKind p name == some AssetKind.installer with
    | some a =>
      have hmem := List.mem_of_find?_eq_some hfi
      have hki : platformAssetKind p a = some AssetKind.installer := by
        have := List.find?_some hfi
        simpa [kindBeq_iff] using this
      refine ⟨a, ?_, hmem, fun ⟨b, hb, hkb⟩ => absurd hkb (hnoarch b hb),
        fun _ => hki⟩
      rw [pickCascade, hfa, hfi]
    | none =>
      exfalso
      obtain ⟨x, hx⟩ : ∃ x, x ∈ cs := by
        cases cs with
        | nil => exact absurd rfl hne
        | cons y ys => exact ⟨y, List.mem_cons_self y ys⟩
      have hs := hsome x hx
      rcases hk : platformAssetKind p x with _ | k
      · rw [hk] at hs; simp at hs
      · cases k with
        | archive => exact hnoarch x hx hk
        | installer =>
          have := List.find?_eq_none.mp hfi x hx
          simp [hk] at this

/-- Helper: full behavior of selection from a non-empty pool: the result is
a member of the pool; it is installer-kind when that preference was requested
and satisfiable, else archive-kind when possible, else installer-kind when
possible, else the first pool entry. -/
lemma pickFromPool_spec (p : Platform) (pool : List String)
    (pref : Option AssetKind) (hne : pool ≠ []) :
    ∃ a, pickFromPool p pool pref = some a ∧ a ∈ pool ∧
      ((pref = some AssetKind.installer ∧
          (∃ b ∈ pool, platformAssetKind p b = some AssetKind.installer)) →
        platformAssetKind p a = some AssetKind.installer) ∧
      ((¬(pref = some AssetKind.installer ∧
            (∃ b ∈ pool, platformAssetKind p b = some AssetKind.installer)) ∧
          (∃ b ∈ pool, platformAssetKind p b = some AssetKind.archive)) →
        platformAssetKind p a = some AssetKind.archive) ∧
      ((pref ≠ some AssetKind.installer ∧
          (∀ b ∈ pool, platformAssetKind p b ≠ some AssetKind.archive) ∧
          (∃ b ∈ pool, platformAssetKind p b = some AssetKind.installer)) →
        platformAssetKind p a = some AssetKind.installer) ∧
      ((∀ b ∈ pool, platformAssetKind p b = none) → pool.head? = some a) := by
  classical
  set sup := pool.filter fun name => (platformAssetKind p name).isSome with hsupdef
  have hsub : ∀ b ∈ sup, b ∈ pool := fun b hb => (List.mem_filter.mp hb).1
  have hsup_mem : ∀ b ∈ pool, (platformAssetKind p b).isSome = true → b ∈ sup :=
    fun b hb hk => List.mem_filter.mpr ⟨hb, hk⟩
  have hsup_some : ∀ b ∈ sup, (platformAssetKind p b).isSome = true :=
    fun b hb => (List.mem_filter.mp hb).2
  cases hsup : sup.isEmpty with
  | true =>
    -- no candidate has a recognized kind
    have hsupnil : sup = [] := List.isEmpty_iff.mp hsup
    have hnone : ∀ b ∈ pool, platformAssetKind p b = none := by
      intro b hb
      rcases hk : platformAssetKind p b with _ | k
      · rfl
      · exfalso
        have : b ∈ sup := hsup_mem b hb (by simp [hk])
        simp [hsupnil] at this
    obtain ⟨a, ha⟩ : ∃ a, pool.head? = some a := by
      cases pool with
      | nil => exact absurd rfl hne
      | cons y ys => exact ⟨y, rfl⟩
    have hamem : a ∈ pool := by
      cases pool with
      | nil => exact absurd rfl hne
      | cons y ys => simp at ha; simp [ha]
    have hbp : (match pref with
        | some k => pool.find? fun name => platformAssetKind p name == some k
        | none => none) = (none : Option String) := by
      cases pref with
      | none => rfl
      | some k =>
        simp only
        rw [List.find?_eq_none]
        intro x hx
        simp [hnone x hx]
    have hres : pickFromPool p pool pref = some a := by
      unfold pickFromPool
      simp only [← hsupdef, hsup, if_true]
      rw [hbp, pickCascade_all_none p pool hnone, ha]
    refine ⟨a, hres, hamem, ?_, ?_, ?_, fun _ => ha⟩
    · rintro ⟨-, b, hb, hkb⟩
      exact absurd (hnone b hb) (by simp [hkb])
    · rintro ⟨-, b, hb, hkb⟩
      exact absurd (hnone b hb) (by simp [hkb])
    · rintro ⟨-, -, b, hb, hkb⟩
      exact absurd (hnone b hb) (by simp [hkb])
  | false =>
    have hsupne : sup ≠ [] := by
      intro h
      rw [h] at hsup
      simp at hsup
    -- in this case selection happens over the narrowed list
    have hcand : pickFromPool p pool pref =
        (match (match pref with
            | some k => sup.find? fun name => platformAssetKind p name == some k
            | none => none) with
          | some a => some a
          | none => pickCascade p sup) := by
      unfold pickFromPool
      simp only [← hsupdef, hsup, Bool.false_eq_true, if_false]
    cases pref with
    | none =>
      obtain ⟨a, hca, hmem, harch, hinst⟩ := pickCascade_spec p sup hsupne hsup_some
      refine ⟨a, by rw [hcand]; exact hca, hsub a hmem, ?_, ?_, ?_, ?_⟩
      · rintro ⟨h, -⟩; cases h
      · rintro ⟨-, b, hb, hkb⟩
        exact harch ⟨b, hsup_mem b hb (by simp [hkb]), hkb⟩
      · rintro ⟨-, hno, -⟩
        exact hinst fun b hb => hno b (hsub b hb)
      · intro hall
        have := hsup_some a hmem
        rw [hall a (hsub a hmem)] at this
        simp at this
    | some k =>
      cases hf : sup.find? fun name => platformAssetKind p name == some k with
      | some a =>
        have hmem := List.mem_of_find?_eq_some hf
        have hka : platformAssetKind p a = some k := by
          have := List.find?_some hf
          simpa [kindBeq_iff] using this
        have hres : pickFromPool p pool (some k) = some a := by
          rw [hcand]
          simp only [hf]
        refine ⟨a, hres, hsub a hmem, ?_, ?_, ?_, ?_⟩
        · rintro ⟨hk, -⟩
          injection hk with hk
          rw [← hk]; exact hka
        · rintro ⟨hni, -, -⟩
          cases k with
          | archive => exact hka
          | installer =>
            exact absurd ⟨rfl, a, hsub a hmem, hka⟩ hni
        · rintro ⟨hnk, hno, -⟩
          cases k with
          | archive => exact absurd hka (hno a (hsub a hmem))
          | installer => exact absurd rfl hnk
        · intro hall
          have := hall a (hsub a hmem)
          rw [this] at hka
          cases hka
      | none =>
        have hnk : ∀ b ∈ sup, platformAssetKind p b ≠ some k := by
          intro b hb hkb
          have := List.find?_eq_none.mp hf b hb
          simp [hkb] at this
        obtain ⟨a, hca, hmem, harch, hinst⟩ := pickCascade_spec p sup hsupne hsup_some
        have hres : pickFromPool p pool (some k) = some a := by
          rw [hcand]
          simp only [hf]
          exact hca
        refine ⟨a, hres, hsub a hmem, ?_, ?_, ?_, ?_⟩
        · rintro ⟨hk, b, hb, hkb⟩
          injection hk with hk
          rw [← hk] at hkb
          exact absurd hkb (hnk b (hsup_mem b hb (by rw [hkb]; rfl)))
        · rintro ⟨-, b, hb, hkb⟩
          exact harch ⟨b, hsup_mem b hb (by rw [hkb]; rfl), hkb⟩
        · rintro ⟨-, hno, -⟩
          exact hinst fun b hb => hno b (hsub b hb)
        · intro hall
          have := hsup_some a hmem
          rw [hall a (hsub a hmem)] at this
          simp at this

/-- Helper: the candidate pool is empty exactly when selection fails. -/
lemma pickAsset_none_of_pool_nil (p : Platform) (assets : List String)
    (pref : Option AssetKind) (h : assetPool p assets = []) :
    pickAsset p assets pref = none := by
  rw [pickAsset]
  cases hA : assets.isEmpty with
  | true => simp
  | false => simp [h]

/-- Helper: on a non-empty pool, `_pick_asset` is selection from the pool. -/
lemma pickAsset_eq_pickFromPool (p : Platform) (assets : List String)
    (pref : Option AssetKind) (hne : assetPool p assets ≠ []) :
    pickAsset p assets pref = pickFromPool p (assetPool p assets) pref := by
  have hassets : assets.isEmpty = false := by
    cases assets with
    | nil => exact absurd rfl hne
    | cons x xs => rfl
  have hpool : (assetPool p assets).isEmpty = false := by
    cases h : assetPool p assets with
    | nil => exact absurd h hne
    | cons x xs => rfl
  rw [pickAsset, hassets, hpool]
  rfl

/-- Claim C4: for every non-empty candidate pool, asset selection returns a
pool member that is installer-kind when the caller requested that preference
and one exists; otherwise archive-kind if one exists; otherwise
installer-kind if one exists; otherwise the first candidate.  In particular,
on Windows the example asset list deterministically yields
`"app-windows.zip"` (both with the installer preference Windows requests and
with no preference). -/
theorem pick_asset_kind_preference (p : Platform) (assets : List String)
    (pref : Option AssetKind) (hne : assetPool p assets ≠ []) :
    (∃ a, pickAsset p assets pref = some a ∧ a ∈ assetPool p assets ∧
      ((pref = some AssetKind.installer ∧
          (∃ b ∈ assetPool p assets,
            platformAssetKind p b = some AssetKind.installer)) →
        platformAssetKind p a = some AssetKind.installer) ∧
      ((¬(pref = some AssetKind.installer ∧
            (∃ b ∈ assetPool p assets,
              platformAssetKind p b = some AssetKind.installer)) ∧
          (∃ b ∈ assetPool p assets,
            platformAssetKind p b = some AssetKind.archive)) →
        platformAssetKind p a = some AssetKind.archive) ∧
      ((pref ≠ some AssetKind.installer ∧
          (∀ b ∈ assetPool p assets,
            platformAssetKind p b ≠ some AssetKind.archive) ∧
          (∃ b ∈ assetPool p assets,
            platformAssetKind p b = some AssetKind.installer)) →
        platformAssetKind p a = some AssetKind.installer) ∧
      ((∀ b ∈ assetPool p assets, platformAssetKind p b = none) →
        (assetPool p assets).head? = some a)) ∧
    pickAsset Platform.windows
      ["app-windows.zip", "app-macos.zip", "app-linux.tar.gz"]
      (some AssetKind.installer) = some "app-windows.zip" ∧
    pickAsset Platform.windows
      ["app-windows.zip", "app-macos.zip", "app-linux.tar.gz"]
      none = some "app-windows.zip" := by
  refine ⟨?_, by decide, by decide⟩
  rw [pickAsset_eq_pickFromPool p assets pref hne]
  exact pickFromPool_spec p (assetPool p assets) pref hne

/-- Witness for C4: the Windows example pool is non-empty and selection picks
the Windows archive. -/
theorem pick_asset_kind_preference_witness :
    assetPool Platform.windows
      ["app-windows.zip", "app-macos.zip", "app-linux.tar.gz"] ≠ [] ∧
    pickAsset Platform.windows
      ["app-windows.zip", "app-macos.zip", "app-linux.tar.gz"]
      (some AssetKind.installer) = some "app-windows.zip" :=
  ⟨by decide,
    (pick_asset_kind_preference Platform.windows
      ["app-windows.zip", "app-macos.zip", "app-linux.tar.gz"]
      (some AssetKind.installer) (by decide)).2.1⟩

/-- Claim C5: the candidate pool is the named assets token-matching the
current platform, falling back to the assets with no recognized platform
token at all, and when both are empty no asset resolves; a single generic
asset such as `"app.zip"` is selected on every platform and under every
preference. -/
theorem pick_asset_pool_fallback (p : Platform) (assets : List String)
    (pref : Option AssetKind) :
    ((assets.filter fun n => n != "" && (assetPlatforms n).contains p) ≠ [] →
      ∃ a, a ∈ (assets.filter fun n => n != "" && (assetPlatforms n).contains p) ∧
        pickAsset p assets pref = some a) ∧
    ((assets.filter fun n => n != "" && (assetPlatforms n).contains p) = [] →
      (assets.filter fun n => n != "" && (assetPlatforms n).isEmpty) ≠ [] →
      ∃ a, a ∈ (assets.filter fun n => n != "" && (assetPlatforms n).isEmpty) ∧
        pickAsset p assets pref = some a) ∧
    ((assets.filter fun n => n != "" && (assetPlatforms n).contains p) = [] →
      (assets.filter fun n => n != "" && (assetPlatforms n).isEmpty) = [] →
      pickAsset p assets pref = none) ∧
    pickAsset p ["app.zip"] pref = some "app.zip" := by
  have hpool : assetPool p assets =
      if (assets.filter fun n => n != "" && (assetPlatforms n).contains p).isEmpty
      then assets.filter fun n => n != "" && (assetPlatforms n).isEmpty
      else assets.filter fun n => n != "" && (assetPlatforms n).contains p := rfl
  refine ⟨?_, ?_, ?_, ?_⟩
  · intro hm
    have hmE : (assets.filter fun n =>
        n != "" && (assetPlatforms n).contains p).isEmpty = false := by
      cases h : assets.filter fun n => n != "" && (assetPlatforms n).contains p with
      | nil => exact absurd h hm
      | cons x xs => rfl
    have hp : assetPool p assets =
        assets.filter fun n => n != "" && (assetPlatforms n).contains p := by
      rw [hpool, hmE]
      rfl
    have hne : assetPool p assets ≠ [] := by rw [hp]; exact hm
    obtain ⟨a, hres, hmem, -⟩ := pickFromPool_spec p (assetPool p assets) pref hne
    rw [pickAsset_eq_pickFromPool p assets pref hne]
    rw [hp] at hmem
    exact ⟨a, hmem, hres⟩
  · intro hm hg
    have hmE : (assets.filter fun n =>
        n != "" && (assetPlatforms n).contains p).isEmpty = true := by
      rw [hm]; rfl
    have hp : assetPool p assets =
        assets.filter fun n => n != "" && (assetPlatforms n).isEmpty := by
      rw [hpool, hmE]
      rfl
    have hne : assetPool p assets ≠ [] := by rw [hp]; exact hg
    obtain ⟨a, hres, hmem, -⟩ := pickFromPool_spec p (assetPool p assets) pref hne
    rw [pickAsset_eq_pickFromPool p assets pref hne]
    rw [hp] at hmem
    exact ⟨a, hmem, hres⟩
  · intro hm hg
    refine pickAsset_none_of_pool_nil p assets pref ?_
    rw [hpool, hm, hg]
    simp
  · rcases p <;> rcases pref with _ | k <;> first | decide | (rcases k <;> decide)

/-- Witness for C5: on Linux, with no preference, the generic-only asset list
`["app.zip"]` falls back to the single generic asset. -/
theorem pick_asset_pool_fallback_witness :
    (["app.zip"].filter fun n =>
      n != "" && (assetPlatforms n).contains Platform.linux) = [] ∧
    (["app.zip"].filter fun n => n != "" && (assetPlatforms n).isEmpty) ≠ [] ∧
    (∃ a, a ∈ (["app.zip"].filter fun n => n != "" && (assetPlatforms n).isEmpty) ∧
      pickAsset Platform.linux ["app.zip"] none = some a) :=
  ⟨by decide, by decide,
    (pick_asset_pool_fallback Platform.linux ["app.zip"] none).2.1
      (by decide) (by decide)⟩

/-! Section: Download URL validation (claims C1, C3) -/

/-- Claim C1: a URL that does not start with `https://` or does not contain
the literal `/{owner}/{name}/releases/download/` segment for the configured
repository makes `download_update` return a validation-error result
synchronously; the event trace is empty, so in particular no network access
(and no filesystem or progress mutation) happens. -/
theorem download_rejects_invalid_url (repo dataDir : String) (env : DlEnv)
    (url : String)
    (h : strStartsWith url "https://" = false ∨
      strContains url ("/" ++ repo ++ "/releases/download/") = false) :
    ∃ msg, downloadUpdate repo dataDir env url =
        (.ok { ok := false, error := some msg, path := none }, []) ∧
      (msg = "missing asset url" ∨ msg = "invalid asset url" ∨
        msg = "asset url not from release") := by
  unfold downloadUpdate
  cases hU : url == "" with
  | true =>
    refine ⟨"missing asset url", ?_, Or.inl rfl⟩
    simp [hU]
  | false =>
    cases hS : strStartsWith url "https://" with
    | false =>
      refine ⟨"invalid asset url", ?_, Or.inr (Or.inl rfl)⟩
      simp [hU, hS]
    | true =>
      have hC : strContains url ("/" ++ repo ++ "/releases/download/") = false := by
        rcases h with h | h
        · rw [h] at hS
          cases hS
        · exact h
      refine ⟨"asset url not from release", ?_, Or.inr (Or.inr rfl)⟩
      simp [hU, hS, hC]

/-- Witness for C1: a plain-HTTP URL for the configured repository is
rejected with no event emitted. -/
theorem download_rejects_invalid_url_witness :
    ∃ msg, downloadUpdate "zmrlft/paraimage" "/data"
        { net := NetResult.failure "refused", mkdirError := none }
        "http://evil.example/zmrlft/paraimage/releases/download/app.zip" =
        (.ok { ok := false, error := some msg, path := none }, []) ∧
      (msg = "missing asset url" ∨ msg = "invalid asset url" ∨
        msg = "asset url not from release") :=
  download_rejects_invalid_url "zmrlft/paraimage" "/data"
    { net := NetResult.failure "refused", mkdirError := none }
    "http://evil.example/zmrlft/paraimage/releases/download/app.zip"
    (Or.inl (by decide))

/-- Claim C3 is violated by the code: `urllib.parse.urlparse` raises an
uncaught `ValueError` inside `download_update` for a URL whose authority
contains an unmatched bracket, even though the URL passes the `https://` and
release-path checks; `check_for_updates` catches `ValueError` from the same
`urllib` machinery, so the exception escapes only here.  This theorem
evaluates the embedding at the failing input. -/
theorem download_update_uncaught_valueerror :
    downloadUpdate "zmrlft/paraimage" "/data"
      { net := NetResult.failure "unreachable", mkdirError := none }
      "https://x[/zmrlft/paraimage/releases/download/app.zip" =
      (.error (PyExc.valueError "Invalid IPv6 URL"), []) := by decide

/-! Section: Install orchestrator properties (claims C2, C9) -/

/-- Claim C2: in packaged mode, a path whose resolved form does not sit
under UpdatesDirectory (in the sense of `Path.relative_to`: the resolved
components of the updates directory are a prefix — this covers `../`
traversal and symlink redirection, both applied by `resolvePath`) is rejected
with a validation failure; the only emitted event is the updates-directory
`mkdir`, so nothing at the target path is read, written or deleted and no
script is generated or launched.  The empty path is likewise rejected before
any event at all. -/
theorem install_rejects_outside_updates_dir (p : Platform) (env : InstallEnv)
    (assetPath r ud : String)
    (hf : env.frozen = true)
    (hm : env.mkdirError = none)
    (hu : env.updatesDirRes = .ok ud)
    (hr : env.resolvePath (env.expanduser assetPath) = .ok r)
    (hout : (pyPathParts ud).isPrefixOf (pyPathParts r) = false) :
    (assetPath ≠ "" →
      installUpdate p env assetPath =
        (.ok { ok := false, error := some "update asset not found" },
          [InstEvent.mkdirUpdates])) ∧
    installUpdate p env "" =
      (.ok { ok := false, error := some "update asset not found" }, []) := by
  constructor
  · intro hne
    have hne' : (assetPath == "") = false := by
      simp [hne]
    have hnorm : normalizeUpdatePath env assetPath =
        (.ok none, [InstEvent.mkdirUpdates]) := by
      unfold normalizeUpdatePath
      simp [hne', hr, hm, hu, hout]
    unfold installUpdate
    simp [hf, hnorm]
  · have hnorm : normalizeUpdatePath env "" = (.ok none, []) := by
      unfold normalizeUpdatePath
      simp
    unfold installUpdate
    simp [hf, hnorm]

/-- Claim C9: in packaged mode, an existing file inside UpdatesDirectory
whose name is not a recognized platform archive (`.zip` on Windows and
macOS; `.tar`, `.tar.gz`, `.tgz` on Linux) and is not, on Windows, a native
installer (`.exe`/`.msi`), makes `install_update` fail with
`"unsupported update asset"`, the trace containing no script write and no
launch. -/
theorem install_unsupported_asset (p : Platform) (env : InstallEnv)
    (assetPath r ud targetDir launchPath : String)
    (hf : env.frozen = true)
    (hne : assetPath ≠ "")
    (hr : env.resolvePath (env.expanduser assetPath) = .ok r)
    (hm : env.mkdirError = none)
    (hu : env.updatesDirRes = .ok ud)
    (hin : (pyPathParts ud).isPrefixOf (pyPathParts r) = true)
    (hex : env.pathExists r = true)
    (hip : env.installPaths = .ok (targetDir, launchPath))
    (htd : targetDir ≠ "")
    (hnozip : (p = Platform.windows ∨ p = Platform.macos) →
      strEndsWith (pyLower (pyPathName r)) ".zip" = false)
    (hnotar : p = Platform.linux →
      strEndsWith (pyLower (pyPathName r)) ".tar.gz" = false ∧
      strEndsWith (pyLower (pyPathName r)) ".tgz" = false ∧
      strEndsWith (pyLower (pyPathName r)) ".tar" = false)
    (hnoinst : p = Platform.windows →
      strEndsWith (pyLower (pyPathName r)) ".exe" = false ∧
      strEndsWith (pyLower (pyPathName r)) ".msi" = false) :
    installUpdate p env assetPath =
      (.ok { ok := false, error := some "unsupported update asset" },
        [InstEvent.mkdirUpdates, InstEvent.statPath r, InstEvent.mkdirUpdates]) := by
  have hne' : (assetPath == "") = false := by simp [hne]
  have htd' : (targetDir == "") = false := by simp [htd]
  have hwi : isWindowsInstaller p (pyPathName r) = false := by
    unfold isWindowsInstaller
    cases p with
    | windows =>
      obtain ⟨h1, h2⟩ := hnoinst rfl
      simp [h1, h2]
    | macos => rfl
    | linux => rfl
  have hva : validateArchive p (pyPathName r) = none := by
    unfold validateArchive
    cases p with
    | windows => simp [hnozip (Or.inl rfl)]
    | macos => simp [hnozip (Or.inr rfl)]
    | linux =>
      obtain ⟨h1, h2, h3⟩ := hnotar rfl
      simp [h1, h2, h3]
  have hnorm : normalizeUpdatePath env assetPath =
      (.ok (some r), [InstEvent.mkdirUpdates]) := by
    unfold normalizeUpdatePath
    simp [hne', hr, hm, hu, hin]
  unfold installUpdate
  simp [hf, hnorm, hex, hip, htd', hm, hwi, hva]

/-- A concrete packaged-mode environment for the install witnesses: paths
resolve to themselves, every path exists, every directory is writable, the
updates directory is `/data/updates`. -/
def packagedEnv : InstallEnv where
  frozen := true
  pid := 42
  dataDir := "/data"
  expanduser := fun s => s
  resolvePath := fun s => .ok s
  updatesDirRes := .ok "/data/updates"
  pathExists := fun _ => true
  installPaths := .ok ("/opt/app", "/opt/app/run")
  canWrite := fun _ => true
  mkdirError := none
  popenError := none

/-- Witness for C2: a resolved path outside `/data/updates` is rejected with
only the `mkdir` event. -/
theorem install_rejects_outside_updates_dir_witness :
    installUpdate Platform.linux packagedEnv "/data/secret.zip" =
      (.ok { ok := false, error := some "update asset not found" },
        [InstEvent.mkdirUpdates]) :=
  (install_rejects_outside_updates_dir Platform.linux packagedEnv
    "/data/secret.zip" "/data/secret.zip" "/data/updates"
    rfl rfl rfl rfl (by decide)).1 (by decide)

/-- Witness for C9: an existing `.rar` inside the updates directory on Linux
is rejected as unsupported without any script write or launch. -/
theorem install_unsupported_asset_witness :
    installUpdate Platform.linux packagedEnv "/data/updates/app.rar" =
      (.ok { ok := false, error := some "unsupported update asset" },
        [InstEvent.mkdirUpdates, InstEvent.statPath "/data/updates/app.rar",
          InstEvent.mkdirUpdates]) :=
  install_unsupported_asset Platform.linux packagedEnv
    "/data/updates/app.rar" "/data/updates/app.rar" "/data/updates"
    "/opt/app" "/opt/app/run"
    rfl (by decide) rfl rfl rfl (by decide) rfl rfl (by decide)
    (by decide) (by decide) (by decide)

/-! Section: Download progress properties (claims C6, C7, C10) -/

/-- Monotone step of published progress: bytes never decrease, and whenever
two successive snapshots both carry a percent, it never decreases. -/
def progressMono (a b : DownloadProgress) : Prop :=
  a.downloaded ≤ b.downloaded ∧
    ∀ x y, a.percent = some x → b.percent = some y → x ≤ y

/-- Helper: progress snapshots distribute over trace concatenation. -/
lemma progressStates_append (l₁ l₂ : List DlEvent) :
    progressStates (l₁ ++ l₂) = progressStates l₁ ++ progressStates l₂ :=
  List.filterMap_append l₁ l₂ _

/-- Helper: trace reduction, `progressSet` head. -/
lemma progressStates_set (st : DownloadProgress) (l : List DlEvent) :
    progressStates (DlEvent.progressSet st :: l) = st :: progressStates l := rfl

/-- Helper: trace reduction, `mkdirUpdates` head. -/
lemma progressStates_mkdir (l : List DlEvent) :
    progressStates (DlEvent.mkdirUpdates :: l) = progressStates l := rfl

/-- Helper: trace reduction, `netOpen` head. -/
lemma progressStates_netOpen (u : String) (l : List DlEvent) :
    progressStates (DlEvent.netOpen u :: l) = progressStates l := rfl

/-- Helper: trace reduction, `fileOpen` head. -/
lemma progressStates_fileOpen (pa : String) (l : List DlEvent) :
    progressStates (DlEvent.fileOpen pa :: l) = progressStates l := rfl

/-- Helper: trace reduction, `fileWrite` head. -/
lemma progressStates_fileWrite (pa : String) (c : ℕ) (l : List DlEvent) :
    progressStates (DlEvent.fileWrite pa c :: l) = progressStates l := rfl

/-- Helper: trace reduction, empty trace. -/
lemma progressStates_nil : progressStates [] = [] := rfl

/-- Helper: one unfolding step of the streaming loop on a non-empty chunk. -/
lemma streamLoop_cons (path : String) (t : Option ℕ) (c : ℕ) (rest : List ℕ)
    (st : DownloadProgress) (hc : ¬c = 0) :
    streamLoop path t (c :: rest) st =
      (DlEvent.fileWrite path c :: DlEvent.progressSet { st with downloaded := st.downloaded + c, percent := chunkPercent t (st.downloaded + c) } :: (streamLoop path t rest { st with downloaded := st.downloaded + c, percent := chunkPercent t (st.downloaded + c) }).1,
       (streamLoop path t rest { st with downloaded := st.downloaded + c, percent := chunkPercent t (st.downloaded + c) }).2) := by
  rw [streamLoop, if_neg hc]

/-- Helper: a zero chunk (a read returning `b""`) ends the loop at once. -/
lemma streamLoop_zero (path : String) (t : Option ℕ) (c : ℕ) (rest : List ℕ)
    (st : DownloadProgress) (hc : c = 0) :
    streamLoop path t (c :: rest) st = ([], st) := by
  rw [streamLoop, if_pos hc]

/-- Helper: a per-chunk percent never exceeds 100. -/
lemma chunkPercent_le (t : Option ℕ) (d : ℕ) : (chunkPercent t d).getD 0 ≤ 100 := by
  cases t with
  | none => simp [chunkPercent]
  | some n =>
    by_cases h : n = 0
    · simp [chunkPercent, h]
    · simp [chunkPercent, h]

/-- Helper: the per-chunk percent is monotone in the byte count. -/
lemma chunkPercent_mono (t : Option ℕ) {d d' : ℕ} (h : d ≤ d') :
    ∀ x y, chunkPercent t d = some x → chunkPercent t d' = some y → x ≤ y := by
  intro x y hx hy
  cases t with
  | none => simp [chunkPercent] at hx
  | some n =>
    by_cases hn : n = 0
    · simp [chunkPercent, hn] at hx
    · simp [chunkPercent, hn] at hx hy
      rw [← hx, ← hy]
      exact min_le_min le_rfl (Nat.div_le_div_right (Nat.mul_le_mul_right _ h))

/-- Helper: the streaming loop only rewrites `downloaded` and `percent`; the
`active`, `done`, `total` and `error` fields of every published snapshot and
of the final state equal those of the input state. -/
lemma streamLoop_flags (path : String) (t : Option ℕ) :
    ∀ (chunks : List ℕ) (st : DownloadProgress),
      (∀ s ∈ progressStates (streamLoop path t chunks st).1,
        s.active = st.active ∧ s.done = st.done ∧ s.total = st.total ∧
          s.error = st.error) ∧
      ((streamLoop path t chunks st).2.active = st.active ∧
        (streamLoop path t chunks st).2.done = st.done ∧
        (streamLoop path t chunks st).2.total = st.total ∧
        (streamLoop path t chunks st).2.error = st.error) := by
  intro chunks
  induction chunks with
  | nil => intro st; simp [streamLoop, progressStates_nil]
  | cons c rest ih =>
    intro st
    by_cases hc : c = 0
    · rw [streamLoop_zero path t c rest st hc]
      simp [progressStates_nil]
    · rw [streamLoop_cons path t c rest st hc]
      have hrec := ih { st with downloaded := st.downloaded + c, percent := chunkPercent t (st.downloaded + c) }
      simp only [progressStates_fileWrite, progressStates_set]
      constructor
      · intro s hs
        rcases List.mem_cons.mp hs with hs | hs
        · rw [hs]
          exact ⟨rfl, rfl, rfl, rfl⟩
        · exact hrec.1 s hs
      · exact hrec.2

/-- Helper: the state after the loop is the last snapshot of the loop trace
extended with the input state. -/
lemma streamLoop_last (path : String) (t : Option ℕ) :
    ∀ (chunks : List ℕ) (st : DownloadProgress),
      (st :: progressStates (streamLoop path t chunks st).1).getLast? =
        some (streamLoop path t chunks st).2 := by
  intro chunks
  induction chunks with
  | nil => intro st; simp [streamLoop, progressStates_nil]
  | cons c rest ih =>
    intro st
    by_cases hc : c = 0
    · rw [streamLoop_zero path t c rest st hc]
      simp [progressStates_nil]
    · rw [streamLoop_cons path t c rest st hc]
      simp only [progressStates_fileWrite, progressStates_set]
      rw [List.getLast?_cons_cons]
      exact ih _

/-- Helper: published snapshots along the loop are monotone, starting from a
state whose percent is the reset value `some 0` or already of per-chunk
shape. -/
lemma streamLoop_chain (path : String) (t : Option ℕ) :
    ∀ (chunks : List ℕ) (st : DownloadProgress),
      (st.percent = some 0 ∨ st.percent = chunkPercent t st.downloaded) →
      List.Chain' progressMono
        (st :: progressStates (streamLoop path t chunks st).1) := by
  intro chunks
  induction chunks with
  | nil => intro st _; simp [streamLoop, progressStates_nil]
  | cons c rest ih =>
    intro st hinv
    by_cases hc : c = 0
    · rw [streamLoop_zero path t c rest st hc]
      simp [progressStates_nil]
    · rw [streamLoop_cons path t c rest st hc]
      simp only [progressStates_fileWrite, progressStates_set]
      rw [List.chain'_cons]
      refine ⟨⟨Nat.le_add_right _ _, ?_⟩, ih _ (Or.inr rfl)⟩
      intro x y hx hy
      rcases hinv with h0 | hck
      · rw [h0] at hx
        injection hx with hx
        rw [← hx]
        exact Nat.zero_le _
      · rw [hck] at hx
        exact chunkPercent_mono t (Nat.le_add_right _ _) x y hx hy

/-- Helper: percent stays at or below 100 along the loop and at its end. -/
lemma streamLoop_percent (path : String) (t : Option ℕ) :
    ∀ (chunks : List ℕ) (st : DownloadProgress),
      st.percent.getD 0 ≤ 100 →
      (∀ s ∈ progressStates (streamLoop path t chunks st).1,
        s.percent.getD 0 ≤ 100) ∧
      (streamLoop path t chunks st).2.percent.getD 0 ≤ 100 := by
  intro chunks
  induction chunks with
  | nil => intro st hst; simpa [streamLoop, progressStates_nil] using hst
  | cons c rest ih =>
    intro st hst
    by_cases hc : c = 0
    · rw [streamLoop_zero path t c rest st hc]
      simpa [progressStates_nil] using hst
    · rw [streamLoop_cons path t c rest st hc]
      have hrec := ih { st with downloaded := st.downloaded + c, percent := chunkPercent t (st.downloaded + c) } (chunkPercent_le t _)
      simp only [progressStates_fileWrite, progressStates_set]
      constructor
      · intro s hs
        rcases List.mem_cons.mp hs with hs | hs
        · rw [hs]
          exact chunkPercent_le t _
        · exact hrec.1 s hs
      · exact hrec.2

/-- Helper: a URL passing all synchronous checks sends `download_update`
into its streaming body. -/
lemma downloadUpdate_valid (repo dataDir : String) (env : DlEnv) (url : String)
    (hv : dlValidates repo url = true) :
    downloadUpdate repo dataDir env url = downloadStream dataDir env url := by
  unfold dlValidates at hv
  simp only [Bool.and_eq_true, Bool.not_eq_true'] at hv
  obtain ⟨⟨⟨⟨h1, h2⟩, h3⟩, h4⟩, h5⟩ := hv
  unfold downloadUpdate
  simp [h1, h2, h3, h4, h5]

/-- Helper: explicit result and trace when the `urlopen` call itself fails. -/
lemma downloadStream_netfail (dataDir : String) (env : DlEnv) (url msg : String)
    (hm : env.mkdirError = none) (hn : env.net = .failure msg) :
    downloadStream dataDir env url =
      (.ok { ok := false, error := some msg },
        [DlEvent.mkdirUpdates, DlEvent.progressSet resetProgress,
          DlEvent.netOpen url,
          DlEvent.progressSet (finalizeError resetProgress msg)]) := by
  unfold downloadStream
  rw [hm, hn]
  rfl

/-- Helper: explicit result and trace when a response streams and the read
following the listed chunks raises. -/
lemma downloadStream_error (dataDir : String) (env : DlEnv) (url : String)
    (cl : Option String) (chunks : List ℕ) (e : String)
    (hm : env.mkdirError = none)
    (hn : env.net = .response cl chunks (some e))
    (hz : chunks.contains 0 = false) :
    downloadStream dataDir env url =
      (.ok { ok := false, error := some e },
        [DlEvent.mkdirUpdates, DlEvent.progressSet resetProgress,
            DlEvent.netOpen url] ++
          (if optPos (parseContentLength cl)
            then [DlEvent.progressSet (initProgress (parseContentLength cl))]
            else []) ++
          [DlEvent.fileOpen (downloadTarget dataDir url)] ++
          (streamLoop (downloadTarget dataDir url) (parseContentLength cl)
            chunks (initProgress (parseContentLength cl))).1 ++
          [DlEvent.progressSet (finalizeError
            (streamLoop (downloadTarget dataDir url) (parseContentLength cl)
              chunks (initProgress (parseContentLength cl))).2 e)]) := by
  unfold downloadStream
  rw [hm, hn]
  simp only [hz]

/-- Helper: explicit result and trace when the download completes (no read
error, or the stream ended at an empty read before the error). -/
lemma downloadStream_success (dataDir : String) (env : DlEnv) (url : String)
    (cl : Option String) (chunks : List ℕ) (se : Option String)
    (hm : env.mkdirError = none)
    (hn : env.net = .response cl chunks se)
    (hse : se = none ∨ chunks.contains 0 = true) :
    downloadStream dataDir env url =
      (.ok { ok := true, path := some (downloadTarget dataDir url) },
        [DlEvent.mkdirUpdates, DlEvent.progressSet resetProgress,
            DlEvent.netOpen url] ++
          (if optPos (parseContentLength cl)
            then [DlEvent.progressSet (initProgress (parseContentLength cl))]
            else []) ++
          [DlEvent.fileOpen (downloadTarget dataDir url)] ++
          (streamLoop (downloadTarget dataDir url) (parseContentLength cl)
            chunks (initProgress (parseContentLength cl))).1 ++
          [DlEvent.progressSet (finalizeSuccess
            (streamLoop (downloadTarget dataDir url) (parseContentLength cl)
              chunks (initProgress (parseContentLength cl))).2)]) := by
  unfold downloadStream
  rw [hm, hn]
  rcases hse with hse | hse
  · subst hse
    rfl
  · simp only [hse]

/-- Helper: a URL failing any synchronous check produces an empty trace. -/
lemma downloadUpdate_invalid_events (repo dataDir : String) (env : DlEnv)
    (url : String) (hv : dlValidates repo url = false) :
    (downloadUpdate repo dataDir env url).2 = [] := by
  unfold dlValidates at hv
  unfold downloadUpdate
  cases h1 : url == "" <;>
    cases h2 : strStartsWith url "https://" <;>
    cases h3 : strContains url ("/" ++ repo ++ "/releases/download/") <;>
    cases h4 : urlBracketMismatch url <;>
    cases h5 : pyPathName (urlPath url) == "" <;>
    simp [h1, h2, h3, h4, h5] at hv ⊢

/-- Helper: the finalizing error update keeps the current percent. -/
lemma finalizeError_percent (st : DownloadProgress) (e : String) :
    (finalizeError st e).percent = st.percent := rfl

/-- Helper: the finalizing success update keeps percent at or below 100. -/
lemma finalizeSuccess_percent (st : DownloadProgress)
    (h : st.percent.getD 0 ≤ 100) :
    (finalizeSuccess st).percent.getD 0 ≤ 100 := by
  cases h2 : st.total with
  | none => simpa [finalizeSuccess, h2] using h
  | some t =>
    by_cases ht : t = 0
    · simpa [finalizeSuccess, h2, ht] using h
    · simp [finalizeSuccess, h2, ht]

/-- Claim C10: at every point during and after a `download_update` call,
`percent` is either `None` or an integer at most 100 (and at least 0, by the
ℕ model matching the non-negative Python computation); in particular the
final snapshot of a download whose bytes (150) exceed the announced
`Content-Length` (100) still reports exactly 100. -/
theorem download_percent_bounded :
    (∀ (repo dataDir : String) (env : DlEnv) (url : String),
      ∀ st ∈ progressStates (downloadUpdate repo dataDir env url).2,
        st.percent.getD 0 ≤ 100) ∧
    (progressStates (downloadUpdate "zmrlft/paraimage" "/data"
        { net := NetResult.response (some "100") [150] none, mkdirError := none }
        "https://github.com/zmrlft/paraimage/releases/download/v1/app.zip").2).getLast? =
      some ⟨false, true, 150, some 100, some 100, none⟩ := by
  constructor
  · intro repo dataDir env url st hst
    cases hv : dlValidates repo url with
    | false =>
      rw [downloadUpdate_invalid_events repo dataDir env url hv] at hst
      simp [progressStates_nil] at hst
    | true =>
      rw [downloadUpdate_valid repo dataDir env url hv] at hst
      cases hmk : env.mkdirError with
      | some e =>
        unfold downloadStream at hst
        rw [hmk] at hst
        simp [progressStates_mkdir, progressStates_nil] at hst
      | none =>
        cases hn : env.net with
        | failure msg =>
          rw [downloadStream_netfail dataDir env url msg hmk hn] at hst
          simp only [progressStates_mkdir, progressStates_set,
            progressStates_netOpen, progressStates_nil] at hst
          rcases List.mem_cons.mp hst with h | h
          · rw [h]; decide
          · rcases List.mem_cons.mp h with h | h
            · rw [h, finalizeError_percent]; decide
            · simp at h
        | response cl chunks se =>
          have hstates : ∀ fin : DownloadProgress,
              fin.percent.getD 0 ≤ 100 →
              st ∈ progressStates
                ([DlEvent.mkdirUpdates, DlEvent.progressSet resetProgress,
                    DlEvent.netOpen url] ++
                  (if optPos (parseContentLength cl)
                    then [DlEvent.progressSet (initProgress (parseContentLength cl))]
                    else []) ++
                  [DlEvent.fileOpen (downloadTarget dataDir url)] ++
                  (streamLoop (downloadTarget dataDir url) (parseContentLength cl)
                    chunks (initProgress (parseContentLength cl))).1 ++
                  [DlEvent.progressSet fin]) →
              st.percent.getD 0 ≤ 100 := by
            intro fin hfin hmem
            have hinit : (initProgress (parseContentLength cl)).percent.getD 0 ≤ 100 := by
              unfold initProgress
              cases hT : optPos (parseContentLength cl) <;> simp [resetProgress]
            have hsl := streamLoop_percent (downloadTarget dataDir url)
              (parseContentLength cl) chunks (initProgress (parseContentLength cl))
              hinit
            simp only [progressStates_append, progressStates_mkdir,
              progressStates_set, progressStates_netOpen, progressStates_fileOpen,
              progressStates_nil, List.mem_append, List.mem_cons,
              List.not_mem_nil, or_false, List.mem_singleton] at hmem
            rcases hmem with ((hmem | hmem) | hmem) | hmem
            · rw [hmem]; decide
            · cases hT : optPos (parseContentLength cl) with
              | true =>
                rw [hT] at hmem
                simp only [if_true, progressStates_set, progressStates_nil] at hmem
                rcases List.mem_cons.mp hmem with h | h
                · rw [h]; exact hinit
                · simp at h
              | false =>
                rw [hT] at hmem
                simp [progressStates_nil] at hmem
            · exact hsl.1 st hmem
            · rw [hmem]; exact hfin
          rcases se with _ | e
          · rw [downloadStream_success dataDir env url cl chunks none hmk hn
              (Or.inl rfl)] at hst
            exact hstates _ (finalizeSuccess_percent _
              (streamLoop_percent _ _ chunks _ (by
                unfold initProgress
                cases hT : optPos (parseContentLength cl) <;>
                  simp [resetProgress])).2) hst
          · cases hz : chunks.contains 0 with
            | true =>
              rw [downloadStream_success dataDir env url cl chunks (some e) hmk hn
                (Or.inr hz)] at hst
              exact hstates _ (finalizeSuccess_percent _
                (streamLoop_percent _ _ chunks _ (by
                  unfold initProgress
                  cases hT : optPos (parseContentLength cl) <;>
                    simp [resetProgress])).2) hst
            | false =>
              rw [downloadStream_error dataDir env url cl chunks e hmk hn hz] at hst
              refine hstates _ ?_ hst
              rw [finalizeError_percent]
              exact (streamLoop_percent _ _ chunks _ (by
                unfold initProgress
                cases hT : optPos (parseContentLength cl) <;>
                  simp [resetProgress])).2
  · decide

/-- Helper: every event of the streaming loop is a chunk write to the target
file or a progress publication. -/
lemma streamLoop_events (path : String) (t : Option ℕ) :
    ∀ (chunks : List ℕ) (st : DownloadProgress),
      ∀ ev ∈ (streamLoop path t chunks st).1,
        (∃ c, ev = DlEvent.fileWrite path c) ∨
          (∃ s, ev = DlEvent.progressSet s) := by
  intro chunks
  induction chunks with
  | nil => intro st ev hev; simp [streamLoop] at hev
  | cons c rest ih =>
    intro st ev hev
    by_cases hc : c = 0
    · rw [streamLoop_zero path t c rest st hc] at hev
      simp at hev
    · rw [streamLoop_cons path t c rest st hc] at hev
      rcases List.mem_cons.mp hev with h | h
      · exact Or.inl ⟨c, h⟩
      · rcases List.mem_cons.mp h with h | h
        · exact Or.inr ⟨_, h⟩
        · exact ih _ ev h

/-- Helper: with no empty read, every listed chunk is written. -/
lemma streamLoop_writes (path : String) (t : Option ℕ) :
    ∀ (chunks : List ℕ) (st : DownloadProgress),
      chunks.contains 0 = false →
      ∀ c ∈ chunks, DlEvent.fileWrite path c ∈ (streamLoop path t chunks st).1 := by
  intro chunks
  induction chunks with
  | nil => intro st _ c hc; simp at hc
  | cons c rest ih =>
    intro st hz c' hc'
    have hc0 : ¬c = 0 := by
      intro h
      subst h
      simp [List.contains_cons] at hz
    have hr : rest.contains 0 = false := by
      rcases h : rest.contains 0
      · rfl
      · rw [List.contains_cons, h, Bool.or_true] at hz
        cases hz
    rw [streamLoop_cons path t c rest st hc0]
    rcases List.mem_cons.mp hc' with h | h
    · rw [h]
      exact List.mem_cons_self _ _
    · exact List.mem_cons_of_mem _ (List.mem_cons_of_mem _ (ih _ hr c' h))

/-- Claim C7: an I/O or network error mid-stream makes `download_update`
finish the shared progress state with `done=true` and the error string,
return a failure result carrying that same string, and leave the partially
written chunks in place: every streamed chunk was written to the target
file, no delete event ever occurs, and a retry of the same URL (any fresh
response environment) opens the very same target path again (with mode
`"wb"`, overwriting the partial file). -/
theorem download_midstream_error_contract (repo dataDir : String) (env : DlEnv)
    (url : String) (cl : Option String) (chunks : List ℕ) (e : String)
    (hv : dlValidates repo url = true)
    (hm : env.mkdirError = none)
    (hn : env.net = NetResult.response cl chunks (some e))
    (hz : chunks.contains 0 = false) :
    (downloadUpdate repo dataDir env url).1 =
      .ok { ok := false, error := some e } ∧
    (∃ stf, (progressStates (downloadUpdate repo dataDir env url).2).getLast? =
        some stf ∧ stf.done = true ∧ stf.active = false ∧ stf.error = some e) ∧
    DlEvent.fileOpen (downloadTarget dataDir url) ∈
      (downloadUpdate repo dataDir env url).2 ∧
    (∀ c ∈ chunks, DlEvent.fileWrite (downloadTarget dataDir url) c ∈
      (downloadUpdate repo dataDir env url).2) ∧
    (∀ pth, DlEvent.fileDelete pth ∉ (downloadUpdate repo dataDir env url).2) ∧
    (∀ env' : DlEnv, env'.mkdirError = none →
      ∀ cl' chunks' se', env'.net = NetResult.response cl' chunks' se' →
        DlEvent.fileOpen (downloadTarget dataDir url) ∈
          (downloadUpdate repo dataDir env' url).2) := by
  rw [downloadUpdate_valid repo dataDir env url hv,
    downloadStream_error dataDir env url cl chunks e hm hn hz]
  refine ⟨rfl, ?_, ?_, ?_, ?_, ?_⟩
  · refine ⟨finalizeError (streamLoop (downloadTarget dataDir url)
      (parseContentLength cl) chunks (initProgress (parseContentLength cl))).2 e,
      ?_, rfl, rfl, rfl⟩
    simp only [progressStates_append, progressStates_mkdir, progressStates_set,
      progressStates_netOpen, progressStates_fileOpen, progressStates_nil]
    rw [List.getLast?_concat]
  · simp
  · intro c hc
    have := streamLoop_writes (downloadTarget dataDir url) (parseContentLength cl)
      chunks (initProgress (parseContentLength cl)) hz c hc
    simp [this]
  · intro pth hmem
    rcases List.mem_append.mp hmem with h | h
    · rcases List.mem_append.mp h with h | h
      · rcases List.mem_append.mp h with h | h
        · rcases List.mem_append.mp h with h | h
          · simp at h
          · cases hT : optPos (parseContentLength cl) with
            | true => rw [hT] at h; simp at h
            | false => rw [hT] at h; simp at h
        · simp at h
      · rcases streamLoop_events _ _ chunks _ _ h with ⟨c, hc⟩ | ⟨s, hs⟩
        · simp at hc
        · simp at hs
    · simp at h
  · intro env' hm' cl' chunks' se' hn'
    rw [downloadUpdate_valid repo dataDir env' url hv]
    rcases se' with _ | e'
    · rw [downloadStream_success dataDir env' url cl' chunks' none hm' hn'
        (Or.inl rfl)]
      simp
    · cases hz' : chunks'.contains 0 with
      | true =>
        rw [downloadStream_success dataDir env' url cl' chunks' (some e') hm' hn'
          (Or.inr hz')]
        simp
      | false =>
        rw [downloadStream_error dataDir env' url cl' chunks' e' hm' hn' hz']
        simp

/-- Witness for C7: a concrete download of two chunks followed by a read
error ends done with the error recorded, the file opened and both chunks
written. -/
theorem download_midstream_error_contract_witness :
    ((downloadUpdate "zmrlft/paraimage" "/data"
        { net := NetResult.response (some "100") [30, 30] (some "timed out"),
          mkdirError := none }
        "https://github.com/zmrlft/paraimage/releases/download/v1/app.zip").1 =
      .ok { ok := false, error := some "timed out" } ∧
    (∃ stf, (progressStates (downloadUpdate "zmrlft/paraimage" "/data"
        { net := NetResult.response (some "100") [30, 30] (some "timed out"),
          mkdirError := none }
        "https://github.com/zmrlft/paraimage/releases/download/v1/app.zip").2).getLast? =
        some stf ∧ stf.done = true ∧ stf.active = false ∧
        stf.error = some "timed out") ∧
    DlEvent.fileOpen (downloadTarget "/data"
        "https://github.com/zmrlft/paraimage/releases/download/v1/app.zip") ∈
      (downloadUpdate "zmrlft/paraimage" "/data"
        { net := NetResult.response (some "100") [30, 30] (some "timed out"),
          mkdirError := none }
        "https://github.com/zmrlft/paraimage/releases/download/v1/app.zip").2 ∧
    (∀ c ∈ [30, 30], DlEvent.fileWrite (downloadTarget "/data"
        "https://github.com/zmrlft/paraimage/releases/download/v1/app.zip") c ∈
      (downloadUpdate "zmrlft/paraimage" "/data"
        { net := NetResult.response (some "100") [30, 30] (some "timed out"),
          mkdirError := none }
        "https://github.com/zmrlft/paraimage/releases/download/v1/app.zip").2) ∧
    (∀ pth, DlEvent.fileDelete pth ∉ (downloadUpdate "zmrlft/paraimage" "/data"
        { net := NetResult.response (some "100") [30, 30] (some "timed out"),
          mkdirError := none }
        "https://github.com/zmrlft/paraimage/releases/download/v1/app.zip").2) ∧
    (∀ env' : DlEnv, env'.mkdirError = none →
      ∀ cl' chunks' se', env'.net = NetResult.response cl' chunks' se' →
        DlEvent.fileOpen (downloadTarget "/data"
            "https://github.com/zmrlft/paraimage/releases/download/v1/app.zip") ∈
          (downloadUpdate "zmrlft/paraimage" "/data" env'
            "https://github.com/zmrlft/paraimage/releases/download/v1/app.zip").2)) :=
  download_midstream_error_contract "zmrlft/paraimage" "/data"
    { net := NetResult.response (some "100") [30, 30] (some "timed out"),
      mkdirError := none }
    "https://github.com/zmrlft/paraimage/releases/download/v1/app.zip"
    (some "100") [30, 30] "timed out" (by decide) rfl rfl (by decide)

/-- Helper: a truthy optional is a non-zero value. -/
lemma optPos_true {o : Option ℕ} (h : optPos o = true) : ∃ n, o = some n ∧ n ≠ 0 := by
  cases o with
  | none => simp [optPos] at h
  | some n =>
    refine ⟨n, rfl, ?_⟩
    simpa [optPos] using h

/-- Helper: the loop-entry state starts active, not done, at zero bytes and
zero percent. -/
lemma initProgress_fields (t : Option ℕ) :
    (initProgress t).active = true ∧ (initProgress t).done = false ∧
      (initProgress t).downloaded = 0 ∧ (initProgress t).percent = some 0 := by
  unfold initProgress
  cases h : optPos t <;> simp [resetProgress]

/-- Helper: with a falsy total the loop-entry state is the reset state. -/
lemma initProgress_falsy {t : Option ℕ} (h : optPos t = false) :
    initProgress t = resetProgress := by
  unfold initProgress
  rw [h]
  rfl

/-- Helper: with a truthy total the loop-entry state records it. -/
lemma initProgress_total {t : Option ℕ} (h : optPos t = true) :
    (initProgress t).total = t := by
  unfold initProgress
  rw [h]
  rfl

/-- The progress snapshots a streaming download publishes before its final
update: the reset state, the total announcement when `Content-Length` is
truthy, and one snapshot per streamed chunk. -/
def dlTrace (target : String) (t : Option ℕ) (chunks : List ℕ) :
    List DownloadProgress :=
  resetProgress ::
    ((if optPos t then [initProgress t] else []) ++
      progressStates (streamLoop target t chunks (initProgress t)).1)

/-- Helper: every pre-final snapshot is active and not done. -/
lemma dlTrace_flags (target : String) (t : Option ℕ) (chunks : List ℕ) :
    ∀ st ∈ dlTrace target t chunks, st.active = true ∧ st.done = false := by
  intro st hst
  rcases List.mem_cons.mp hst with h | h
  · rw [h]
    exact ⟨rfl, rfl⟩
  · rcases List.mem_append.mp h with h | h
    · cases hT : optPos t with
      | true =>
        rw [hT] at h
        simp only [if_true, List.mem_singleton] at h
        rw [h]
        exact ⟨(initProgress_fields t).1, (initProgress_fields t).2.1⟩
      | false =>
        rw [hT] at h
        simp at h
    · have := (streamLoop_flags target t chunks (initProgress t)).1 st h
      rw [this.1, this.2.1]
      exact ⟨(initProgress_fields t).1, (initProgress_fields t).2.1⟩

/-- Helper: the last pre-final snapshot is the state the loop ends in. -/
lemma dlTrace_last (target : String) (t : Option ℕ) (chunks : List ℕ) :
    (dlTrace target t chunks).getLast? =
      some (streamLoop target t chunks (initProgress t)).2 := by
  unfold dlTrace
  cases hT : optPos t with
  | false =>
    simp only [hT, Bool.false_eq_true, if_false, List.nil_append]
    rw [← initProgress_falsy hT]
    exact streamLoop_last target t chunks (initProgress t)
  | true =>
    simp only [hT, if_true, List.singleton_append]
    rw [List.getLast?_cons_cons]
    exact streamLoop_last target t chunks (initProgress t)

/-- Helper: the pre-final snapshots are monotone. -/
lemma dlTrace_chain (target : String) (t : Option ℕ) (chunks : List ℕ) :
    List.Chain' progressMono (dlTrace target t chunks) := by
  unfold dlTrace
  cases hT : optPos t with
  | false =>
    simp only [hT, Bool.false_eq_true, if_false, List.nil_append]
    rw [← initProgress_falsy hT]
    exact streamLoop_chain target t chunks (initProgress t)
      (Or.inl (initProgress_fields t).2.2.2)
  | true =>
    simp only [hT, if_true, List.singleton_append]
    rw [List.chain'_cons]
    constructor
    · constructor
      · rw [(initProgress_fields t).2.2.1]
        simp [resetProgress]
      · intro x y hx hy
        simp [resetProgress] at hx
        rw [(initProgress_fields t).2.2.2] at hy
        simp at hy
        omega
    · exact streamLoop_chain target t chunks (initProgress t)
        (Or.inl (initProgress_fields t).2.2.2)

/-- Helper: the success finalization never lowers a published percent. -/
lemma finalizeSuccess_mono (s2 : DownloadProgress) (hb : s2.percent.getD 0 ≤ 100) :
    ∀ x y, s2.percent = some x → (finalizeSuccess s2).percent = some y → x ≤ y := by
  intro x y hx hy
  have hbx : x ≤ 100 := by
    rw [hx] at hb
    simpa using hb
  unfold finalizeSuccess at hy
  dsimp only at hy
  cases ht2 : s2.total with
  | none =>
    rw [ht2] at hy
    rw [hx] at hy
    injection hy with hy
    omega
  | some n =>
    rw [ht2] at hy
    by_cases hn0 : n = 0
    · simp only [hn0, ne_eq, not_true_eq_false, if_false] at hy
      rw [hx] at hy
      injection hy with hy
      omega
    · simp only [ne_eq, hn0, not_false_eq_true, if_true] at hy
      injection hy with hy
      omega

/-- Helper: with a truthy recorded total the success finalization reports
exactly 100. -/
lemma finalizeSuccess_100 (s2 : DownloadProgress) (n : ℕ) (h : s2.total = some n)
    (hn : n ≠ 0) : (finalizeSuccess s2).percent = some 100 := by
  unfold finalizeSuccess
  dsimp only
  rw [h]
  simp [hn]

/-- Helper: lifecycle facts for any trace of the shape
`pre-final snapshots ++ [final snapshot]`. -/
lemma lifecycle_of_trace (tr : List DownloadProgress) (target : String)
    (t : Option ℕ) (chunks : List ℕ) (fin : DownloadProgress)
    (htr : tr = dlTrace target t chunks ++ [fin])
    (hfa : fin.active = false) (hfd : fin.done = true)
    (hdl : fin.downloaded =
      (streamLoop target t chunks (initProgress t)).2.downloaded)
    (hpc : ∀ x y,
      (streamLoop target t chunks (initProgress t)).2.percent = some x →
      fin.percent = some y → x ≤ y) :
    tr.head? = some resetProgress ∧
    (∀ st ∈ tr.dropLast, st.active = true ∧ st.done = false) ∧
    (∃ stf, tr.getLast? = some stf ∧ stf.active = false ∧ stf.done = true) ∧
    List.Chain' progressMono tr := by
  subst htr
  refine ⟨?_, ?_, ⟨fin, ?_, hfa, hfd⟩, ?_⟩
  · rfl
  · intro st hst
    rw [List.dropLast_concat] at hst
    exact dlTrace_flags target t chunks st hst
  · rw [List.getLast?_concat]
  · refine List.chain'_append.mpr
      ⟨dlTrace_chain target t chunks, List.chain'_singleton fin, ?_⟩
    intro x hx y hy
    rw [dlTrace_last] at hx
    simp only [List.head?_cons, Option.mem_def, Option.some_inj] at hx hy
    constructor
    · rw [← hx, ← hy, hdl]
    · intro a b ha hb
      rw [← hx] at ha
      rw [← hy] at hb
      exact hpc a b ha hb

/-- Claim C6: within one validated `download_update` call, the shared
progress state passes exactly once from the fresh `active=true` reset state
through intermediate snapshots — all still `active=true, done=false`, with
`downloaded` and `percent` monotonically non-decreasing — to a final
`done=true` snapshot, reached on success and on error alike; on success with
a known (truthy) total size the final percent is exactly 100. -/
theorem download_progress_lifecycle (repo dataDir : String) (env : DlEnv)
    (url : String) (hv : dlValidates repo url = true)
    (hm : env.mkdirError = none) :
    (progressStates (downloadUpdate repo dataDir env url).2).head? =
      some resetProgress ∧
    (∀ st ∈ (progressStates (downloadUpdate repo dataDir env url).2).dropLast,
      st.active = true ∧ st.done = false) ∧
    (∃ stf, (progressStates (downloadUpdate repo dataDir env url).2).getLast? =
      some stf ∧ stf.active = false ∧ stf.done = true) ∧
    List.Chain' progressMono
      (progressStates (downloadUpdate repo dataDir env url).2) ∧
    (∀ cl chunks se, env.net = NetResult.response cl chunks se →
      (se = none ∨ chunks.contains 0 = true) →
      optPos (parseContentLength cl) = true →
      ∃ stf, (progressStates (downloadUpdate repo dataDir env url).2).getLast? =
        some stf ∧ stf.percent = some 100) := by
  rw [downloadUpdate_valid repo dataDir env url hv]
  cases hn : env.net with
  | failure msg =>
    rw [downloadStream_netfail dataDir env url msg hm hn]
    have htr : progressStates [DlEvent.mkdirUpdates,
        DlEvent.progressSet resetProgress, DlEvent.netOpen url,
        DlEvent.progressSet (finalizeError resetProgress msg)] =
        [resetProgress, finalizeError resetProgress msg] := rfl
    rw [htr]
    refine ⟨rfl, ?_, ⟨finalizeError resetProgress msg, rfl, rfl, rfl⟩, ?_, ?_⟩
    · intro st hst
      have : st = resetProgress := by simpa using hst
      rw [this]
      exact ⟨rfl, rfl⟩
    · refine List.chain'_cons.mpr ⟨⟨le_rfl, ?_⟩, List.chain'_singleton _⟩
      intro x y hx hy
      simp [resetProgress] at hx
      simp [finalizeError, resetProgress] at hy
      omega
    · intro cl chunks se h
      exact NetResult.noConfusion h
  | response cl chunks se =>
    have hinit0 : (initProgress (parseContentLength cl)).percent.getD 0 ≤ 100 := by
      rw [(initProgress_fields (parseContentLength cl)).2.2.2]
      decide
    have hps := streamLoop_percent (downloadTarget dataDir url)
      (parseContentLength cl) chunks (initProgress (parseContentLength cl)) hinit0
    have htrace : ∀ fin : DownloadProgress,
        progressStates ([DlEvent.mkdirUpdates,
            DlEvent.progressSet resetProgress, DlEvent.netOpen url] ++
          (if optPos (parseContentLength cl)
            then [DlEvent.progressSet (initProgress (parseContentLength cl))]
            else []) ++
          [DlEvent.fileOpen (downloadTarget dataDir url)] ++
          (streamLoop (downloadTarget dataDir url) (parseContentLength cl)
            chunks (initProgress (parseContentLength cl))).1 ++
          [DlEvent.progressSet fin]) =
        dlTrace (downloadTarget dataDir url) (parseContentLength cl) chunks ++
          [fin] := by
      intro fin
      simp only [progressStates_append, progressStates_mkdir, progressStates_set,
        progressStates_netOpen, progressStates_fileOpen, progressStates_nil,
        dlTrace]
      cases hT : optPos (parseContentLength cl) with
      | true => simp [hT, progressStates_set, progressStates_nil]
      | false => simp [hT, progressStates_nil]
    have hflags := streamLoop_flags (downloadTarget dataDir url)
      (parseContentLength cl) chunks (initProgress (parseContentLength cl))
    rcases se with _ | e
    · rw [downloadStream_success dataDir env url cl chunks none hm hn (Or.inl rfl)]
      obtain ⟨h1, h2, h3, h4⟩ := lifecycle_of_trace _ (downloadTarget dataDir url)
        (parseContentLength cl) chunks
        (finalizeSuccess (streamLoop (downloadTarget dataDir url)
          (parseContentLength cl) chunks (initProgress (parseContentLength cl))).2)
        (htrace _) rfl rfl rfl (finalizeSuccess_mono _ hps.2)
      refine ⟨h1, h2, h3, h4, ?_⟩
      intro cl' chunks' se' h hse htot
      injection h with hcl hch hse'
      subst hcl
      refine ⟨finalizeSuccess (streamLoop (downloadTarget dataDir url)
        (parseContentLength cl) chunks (initProgress (parseContentLength cl))).2,
        ?_, ?_⟩
      · dsimp only
        rw [htrace _, List.getLast?_concat]
      · obtain ⟨n, hcn, hn0⟩ := optPos_true htot
        refine finalizeSuccess_100 _ n ?_ hn0
        rw [hflags.2.2.2.1, initProgress_total htot, hcn]
    · cases hz : chunks.contains 0 with
      | true =>
        rw [downloadStream_success dataDir env url cl chunks (some e) hm hn
          (Or.inr hz)]
        obtain ⟨h1, h2, h3, h4⟩ := lifecycle_of_trace _ (downloadTarget dataDir url)
          (parseContentLength cl) chunks
          (finalizeSuccess (streamLoop (downloadTarget dataDir url)
            (parseContentLength cl) chunks (initProgress (parseContentLength cl))).2)
          (htrace _) rfl rfl rfl (finalizeSuccess_mono _ hps.2)
        refine ⟨h1, h2, h3, h4, ?_⟩
        intro cl' chunks' se' h hse htot
        injection h with hcl hch hse'
        subst hcl
        refine ⟨finalizeSuccess (streamLoop (downloadTarget dataDir url)
          (parseContentLength cl) chunks (initProgress (parseContentLength cl))).2,
          ?_, ?_⟩
        · dsimp only
          rw [htrace _, List.getLast?_concat]
        · obtain ⟨n, hcn, hn0⟩ := optPos_true htot
          refine finalizeSuccess_100 _ n ?_ hn0
          rw [hflags.2.2.2.1, initProgress_total htot, hcn]
      | false =>
        rw [downloadStream_error dataDir env url cl chunks e hm hn hz]
        have hmonoE : ∀ x y,
            (streamLoop (downloadTarget dataDir url) (parseContentLength cl)
              chunks (initProgress (parseContentLength cl))).2.percent = some x →
            (finalizeError (streamLoop (downloadTarget dataDir url)
              (parseContentLength cl) chunks
              (initProgress (parseContentLength cl))).2 e).percent = some y →
            x ≤ y := by
          intro x y hx hy
          rw [finalizeError_percent] at hy
          rw [hx] at hy
          injection hy with hy
          omega
        obtain ⟨h1, h2, h3, h4⟩ := lifecycle_of_trace _ (downloadTarget dataDir url)
          (parseContentLength cl) chunks
          (finalizeError (streamLoop (downloadTarget dataDir url)
            (parseContentLength cl) chunks (initProgress (parseContentLength cl))).2 e)
          (htrace _) rfl rfl rfl hmonoE
        refine ⟨h1, h2, h3, h4, ?_⟩
        intro cl' chunks' se' h hse htot
        injection h with hcl hch hse'
        subst hch
        rcases hse with hse | hse
        · rw [← hse'] at hse
          exact Option.noConfusion hse
        · rw [hz] at hse
          exact Bool.noConfusion hse

/-- Witness for C6: the concrete two-chunk download with `Content-Length`
100 starts at the reset state, keeps every non-final snapshot active, ends
done, is monotone and finishes at percent 100. -/
theorem download_progress_lifecycle_witness :
    ((progressStates (downloadUpdate "zmrlft/paraimage" "/data"
        { net := NetResult.response (some "100") [60, 60] none, mkdirError := none }
        "https://github.com/zmrlft/paraimage/releases/download/v1/app.zip").2).head? =
      some resetProgress ∧
    (∀ st ∈ (progressStates (downloadUpdate "zmrlft/paraimage" "/data"
        { net := NetResult.response (some "100") [60, 60] none, mkdirError := none }
        "https://github.com/zmrlft/paraimage/releases/download/v1/app.zip").2).dropLast,
      st.active = true ∧ st.done = false) ∧
    (∃ stf, (progressStates (downloadUpdate "zmrlft/paraimage" "/data"
        { net := NetResult.response (some "100") [60, 60] none, mkdirError := none }
        "https://github.com/zmrlft/paraimage/releases/download/v1/app.zip").2).getLast? =
      some stf ∧ stf.active = false ∧ stf.done = true) ∧
    List.Chain' progressMono
      (progressStates (downloadUpdate "zmrlft/paraimage" "/data"
        { net := NetResult.response (some "100") [60, 60] none, mkdirError := none }
        "https://github.com/zmrlft/paraimage/releases/download/v1/app.zip").2) ∧
    (∀ cl chunks se,
      ({ net := NetResult.response (some "100") [60, 60] none,
          mkdirError := none } : DlEnv).net = NetResult.response cl chunks se →
      (se = none ∨ chunks.contains 0 = true) →
      optPos (parseContentLength cl) = true →
      ∃ stf, (progressStates (downloadUpdate "zmrlft/paraimage" "/data"
          { net := NetResult.response (some "100") [60, 60] none, mkdirError := none }
          "https://github.com/zmrlft/paraimage/releases/download/v1/app.zip").2).getLast? =
        some stf ∧ stf.percent = some 100)) :=
  download_progress_lifecycle "zmrlft/paraimage" "/data"
    { net := NetResult.response (some "100") [60, 60] none, mkdirError := none }
    "https://github.com/zmrlft/paraimage/releases/download/v1/app.zip"
    (by decide) rfl

/-- Witness for C10: the reset snapshot of the overflowing download is in the
trace and its percent is within range. -/
theorem download_percent_bounded_witness :
    resetProgress ∈ progressStates (downloadUpdate "zmrlft/paraimage" "/data"
        { net := NetResult.response (some "100") [150] none, mkdirError := none }
        "https://github.com/zmrlft/paraimage/releases/download/v1/app.zip").2 ∧
    resetProgress.percent.getD 0 ≤ 100 :=
  ⟨by decide,
    download_percent_bounded.1 "zmrlft/paraimage" "/data"
      { net := NetResult.response (some "100") [150] none, mkdirError := none }
      "https://github.com/zmrlft/paraimage/releases/download/v1/app.zip"
      resetProgress (by decide)⟩

end Updater
